import Mathlib

/-!
Shallow embedding of `src/sandbox/database.py` (assetjet): the Yahoo price
fetcher/parser (`get_yahoo_prices`), the SQLite-backed store (`create_db`,
`save_to_db`) and the symbol-file sanitization branch of `populate_db`,
together with theorems about the properties stated in the specification.
-/

namespace AssetJet

/-! ## Calendar dates

The source manipulates `datetime.date` values (`database.py` lines 56-68).
CPython's `datetime.date` is a proleptic-Gregorian (year, month, day)
triple; `date - timedelta(n)` is computed by converting to the Gregorian
ordinal (days since 0001-01-01 = ordinal 1), subtracting, and converting
back.  The functions below embed exactly that arithmetic. -/

structure PyDate where
  year : Int
  month : Int
  day : Int
deriving DecidableEq, Repr

/-- Gregorian leap-year test (CPython `datetime._is_leap`). -/
def isLeap (y : Int) : Bool :=
  y % 4 == 0 && (y % 100 != 0 || y % 400 == 0)

/-- Cumulative days before month `m` in a non-leap year
(CPython `datetime._DAYS_BEFORE_MONTH`). -/
def daysBeforeMonthBase (m : Int) : Int :=
  if m ≤ 1 then 0
  else if m = 2 then 31
  else if m = 3 then 59
  else if m = 4 then 90
  else if m = 5 then 120
  else if m = 6 then 151
  else if m = 7 then 181
  else if m = 8 then 212
  else if m = 9 then 243
  else if m = 10 then 273
  else if m = 11 then 304
  else 334

/-- Days before month `m` of year `y` (CPython `datetime._days_before_month`). -/
def daysBeforeMonth (y m : Int) : Int :=
  daysBeforeMonthBase m + (if 2 < m ∧ isLeap y = true then 1 else 0)

/-- Days before January 1st of year `y` (CPython `datetime._days_before_year`). -/
def daysBeforeYear (y : Int) : Int :=
  let z := y - 1
  z * 365 + z.fdiv 4 - z.fdiv 100 + z.fdiv 400

/-- Proleptic-Gregorian ordinal of a date, with 0001-01-01 = 1
(CPython `date.toordinal`). -/
def toordinal (d : PyDate) : Int :=
  daysBeforeYear d.year + daysBeforeMonth d.year d.month + d.day

/-- Inverse of `toordinal` (CPython `date.fromordinal`), written with the
standard loop-free civil-from-days computation over the 400-year cycle. -/
def fromordinal (n : Int) : PyDate :=
  let z := n + 305
  let era := z.fdiv 146097
  let doe := z - era * 146097
  let yoe := (doe - doe.fdiv 1460 + doe.fdiv 36524 - doe.fdiv 146096).fdiv 365
  let y := yoe + era * 400
  let doy := doe - (365 * yoe + yoe.fdiv 4 - yoe.fdiv 100)
  let mp := (5 * doy + 2).fdiv 153
  let d := doy - (153 * mp + 2).fdiv 5 + 1
  let m := if mp < 10 then mp + 3 else mp - 9
  ⟨if m ≤ 2 then y + 1 else y, m, d⟩

/-- CPython `date - timedelta(n)`: ordinal arithmetic on the proleptic
Gregorian calendar.  `database.py` lines 57-58 use it with `n = 1`
(`yesterdate`) and `n = 365` (`lastyeardate`). -/
def dateSubDays (d : PyDate) (n : Int) : PyDate :=
  fromordinal (toordinal d - n)

/-- Modelled from the spec: the words of the specification say the default
start date is "one year ago", i.e. the same calendar day of the previous
year.  Used only to compare the spec's words with the source's
`todaydate - datetime.timedelta(365)`. -/
def oneYearBefore (d : PyDate) : PyDate :=
  ⟨d.year - 1, d.month, d.day⟩

/-! ## Python string primitives

The parser and sanitizer use `str.strip()`, `str.split(',')` and
`str.replace(c, "-")` with single-character patterns (`database.py`
lines 83, 160-168).  They are embedded over `List Char` so that every
definition is executable by the kernel. -/

/-- Python `str.isspace` characters removed by `str.strip()`. -/
def isPySpace (c : Char) : Bool :=
  c == ' ' || c == '\t' || c == '\n' || c == '\r' || c == '\x0b' || c == '\x0c'

/-- Python `str.strip()` on a character list. -/
def pyStripList (l : List Char) : List Char :=
  ((l.dropWhile isPySpace).reverse.dropWhile isPySpace).reverse

/-- Python `str.strip()`. -/
def pyStrip (s : String) : String :=
  String.mk (pyStripList s.toList)

/-- Python `str.split(',')`: split on every comma; `n` commas give `n + 1`
fields, and the empty string gives one empty field. -/
def splitFields : List Char → List (List Char)
  | [] => [[]]
  | c :: cs =>
    if c == ',' then [] :: splitFields cs
    else
      match splitFields cs with
      | [] => [[c]]
      | f :: fs => (c :: f) :: fs

/-- Python `s.split(',')` on strings. -/
def pySplitComma (s : String) : List String :=
  (splitFields s.toList).map String.mk

/-- The field list of one raw CSV line: `line.strip().split(',')`
(`database.py` line 83). -/
def lineItems (line : String) : List String :=
  pySplitComma (pyStrip line)

/-- Python `str.replace(bad, "-")` for a single-character pattern, as used
with each element of `badchars` (`database.py` line 167). -/
def replaceChar (bad : Char) (l : List Char) : List Char :=
  l.map fun c => if c == bad then '-' else c

/-! ## Fetcher: `get_yahoo_prices` (`database.py` lines 32-95)

The function's environment — the local clock, `datetime.strptime`, the
HTTP fetch, and Python's `float()` string parser — is passed in as a
`FetchEnv`.  `strptime fmt s = none` stands for `strptime` raising
`ValueError` (the spec's FormatError) on a string not matching the
format; `pyfloat s = none` stands for `float(s)` raising `ValueError`.
The price field type is abstract (`α`) because no claim depends on
floating-point values. -/

/-- Date / numeric parse failure (`ValueError` from `strptime` or
`float`); the spec's FormatError. -/
inductive FormatError
  | formatError
deriving DecidableEq, Repr

/-- Resolution of `startdate` and `enddate` (`database.py` lines 56-68):
a missing start date defaults to `todaydate - timedelta(365)`, a missing
end date to `todaydate - timedelta(1)`; a provided string is parsed with
`strptime` (against `datefmt`), whose failure aborts the call.  The start
date is resolved first, exactly as in the source. -/
def get_yahoo_dates (today : PyDate) (strptime : String → String → Option PyDate)
    (startdate enddate : Option String) (datefmt : String) :
    Except FormatError (PyDate × PyDate) :=
  let yesterdate := dateSubDays today 1
  let lastyeardate := dateSubDays today 365
  match startdate with
  | none =>
    match enddate with
    | none => .ok (lastyeardate, yesterdate)
    | some s2 =>
      match strptime s2 datefmt with
      | none => .error .formatError
      | some ed => .ok (lastyeardate, ed)
  | some s =>
    match strptime s datefmt with
    | none => .error .formatError
    | some sd =>
      match enddate with
      | none => .ok (sd, yesterdate)
      | some s2 =>
        match strptime s2 datefmt with
        | none => .error .formatError
        | some ed => .ok (sd, ed)

/-- The query parameters interpolated into the request URL
(`database.py` lines 71-74): `a`..`c` from the start date, `d`..`f` from
the end date.  Note that only the two month parameters get `- 1`. -/
structure UrlParams where
  s : String
  a : Int
  b : Int
  c : Int
  d : Int
  e : Int
  f : Int
  g : String
deriving DecidableEq, Repr

/-- Values interpolated by the `%` format at `database.py` lines 71-74. -/
def urlParams (symbol : String) (startdate enddate : PyDate) (period : String) : UrlParams :=
  ⟨symbol, startdate.month - 1, startdate.day, startdate.year,
   enddate.month - 1, enddate.day, enddate.year, period⟩

/-- The full request URL (`database.py` lines 71-74). -/
def buildUrl (p : UrlParams) : String :=
  "http://ichart.finance.yahoo.com/table.csv?s=" ++ p.s ++
  "&a=" ++ toString p.a ++ "&b=" ++ toString p.b ++ "&c=" ++ toString p.c ++
  "&d=" ++ toString p.d ++ "&e=" ++ toString p.e ++ "&f=" ++ toString p.f ++
  "&y=0&g=" ++ p.g ++ "&ignore=.csv"

/-- One parsed price row (`database.py` line 91): the tuple
`(symbol, dt, opn, high, low, close, volume, adjclose)` appended to
`data`.  The six numeric fields have the abstract type `α`. -/
structure PriceRecord (α : Type) where
  symbol : String
  date : String
  opn : α
  high : α
  low : α
  close : α
  volume : α
  adjclose : α
deriving DecidableEq, Repr

/-- The list comprehension `[float(x) for x in items[1:7]]`
(`database.py` line 90): all six fields must parse, otherwise the line
raises (`none`). -/
def parse6 (pyfloat : String → Option α) (s1 s2 s3 s4 s5 s6 : String) :
    Option (α × α × α × α × α × α) :=
  match pyfloat s1, pyfloat s2, pyfloat s3, pyfloat s4, pyfloat s5, pyfloat s6 with
  | some a, some b, some c, some d, some e, some f => some (a, b, c, d, e, f)
  | _, _, _, _, _, _ => none

/-- Outcome of the loop body at `database.py` lines 81-91 for one line. -/
inductive LineResult (α : Type)
  | skip
  | bad
  | record (r : PriceRecord α)
deriving DecidableEq, Repr

/-- The loop body (`database.py` lines 83-91): split the stripped line on
commas; the source's `len(items) != 7 → continue` followed by
`items[0]` / `items[1:7]` is rendered as the seven-element list pattern.
`skip` is the `continue`, `bad` a `ValueError` escaping from `float`,
`record` a successfully appended row. -/
def classifyLine (pyfloat : String → Option α) (symbol : String) (line : String) :
    LineResult α :=
  match lineItems line with
  | [dt, s1, s2, s3, s4, s5, s6] =>
    match parse6 pyfloat s1 s2 s3 s4 s5 s6 with
    | none => .bad
    | some (a, b, c, d, e, f) => .record ⟨symbol, dt, a, b, c, d, e, f⟩
  | _ => .skip

/-- The whole parse loop (`database.py` lines 79-91) over the lines after
the header, building `data` in input order; a `ValueError` from `float`
aborts the call. -/
def parseDataLines (pyfloat : String → Option α) (symbol : String) :
    List String → Except FormatError (List (PriceRecord α))
  | [] => .ok []
  | line :: rest =>
    match classifyLine pyfloat symbol line with
    | .skip => parseDataLines pyfloat symbol rest
    | .bad => .error .formatError
    | .record r =>
      match parseDataLines pyfloat symbol rest with
      | .error e => .error e
      | .ok recs => .ok (r :: recs)

/-- The record a single line contributes, if any: `none` both for a
skipped line and for a line whose floats fail to parse. -/
def tryRecordOfLine (pyfloat : String → Option α) (symbol : String) (line : String) :
    Option (PriceRecord α) :=
  match classifyLine pyfloat symbol line with
  | .record r => some r
  | _ => none

/-- The `'S8'` dtype of the schema: the symbol is truncated to 8 bytes
when `data` is coerced by `np.array` (`database.py` lines 27-30, 93).
The source's Python 2 strings are byte strings, so bytes coincide with
the characters modelled here. -/
def take8 (s : String) : String := String.mk (s.toList.take 8)

/-- Coercion of one tuple of `data` to the schema dtype performed by
`np.array(data, dtype=schema)` (`database.py` line 93): the symbol is
truncated to `'S8'`, the date string is parsed by the `'M8[D]'`
(`datetime64[D]`) parser — `npdate`, part of the numpy environment, with
`none` standing for the `ValueError` it raises on an unparseable date —
and the six float fields pass through unchanged. -/
def npCoerce (npdate : String → Option String) (r : PriceRecord α) :
    Option (PriceRecord α) :=
  match npdate r.date with
  | none => none
  | some d => some ⟨take8 r.symbol, d, r.opn, r.high, r.low, r.close, r.volume, r.adjclose⟩

/-- `np.array(data, dtype=schema)` (`database.py` line 93) over the
whole `data` list: every tuple is coerced; a date the `'M8[D]'` parser
rejects raises `ValueError`, aborting the call with no output. -/
def npArray (npdate : String → Option String) :
    List (PriceRecord α) → Except FormatError (List (PriceRecord α))
  | [] => .ok []
  | r :: rs =>
    match npCoerce npdate r with
    | none => .error .formatError
    | some r2 =>
      match npArray npdate rs with
      | .error e => .error e
      | .ok rs2 => .ok (r2 :: rs2)

/-- Parsing of the raw response (`database.py` lines 79-95): `lines[1:]`
discards the header line, the loop builds `data`, and
`np.array(data, dtype=schema)` coerces it to the schema dtype. -/
def parseResponse (pyfloat : String → Option α) (npdate : String → Option String)
    (symbol : String) (lines : List String) :
    Except FormatError (List (PriceRecord α)) :=
  match parseDataLines pyfloat symbol lines.tail with
  | .error e => .error e
  | .ok data => npArray npdate data

/-- The coerced record a single line contributes, if any: `none` for a
skipped line, for a line whose floats fail to parse, and for a line
whose date the `'M8[D]'` parser rejects. -/
def tryCoercedRecordOfLine (pyfloat : String → Option α)
    (npdate : String → Option String) (symbol : String) (line : String) :
    Option (PriceRecord α) :=
  (tryRecordOfLine pyfloat symbol line).bind (npCoerce npdate)

/-- Environment of `get_yahoo_prices`: the local calendar day at
invocation time (`time.localtime()[:3]`), `datetime.strptime`, the HTTP
fetch (`urlopen(url).readlines()`), Python `float` on strings, and
numpy's `'M8[D]'` date parser. -/
structure FetchEnv (α : Type) where
  today : PyDate
  strptime : String → String → Option PyDate
  fetch : String → List String
  pyfloat : String → Option α
  npdate : String → Option String

/-- `get_yahoo_prices` (`database.py` lines 32-95): resolve the date
range, build the URL, fetch, parse everything after the header, and
coerce the result to the schema dtype. -/
def get_yahoo_prices (env : FetchEnv α) (symbol : String)
    (startdate enddate : Option String) (period : String) (datefmt : String) :
    Except FormatError (List (PriceRecord α)) :=
  match get_yahoo_dates env.today env.strptime startdate enddate datefmt with
  | .error e => .error e
  | .ok (sd, ed) =>
    let url := buildUrl (urlParams symbol sd ed period)
    let lines := env.fetch url
    parseResponse env.pyfloat env.npdate symbol lines

/-! ## Store: `create_db` and `save_to_db` (`database.py` lines 97-138)

The SQLite file at a path is modelled as `Option (DB α)`: `none` when
`os.path.exists` is false, `some db` otherwise.  `DB` carries the three
tables created at lines 105-107 and a flag recording that the unique
index `Idx_TimeSeries ON TimeSeries (Cd, Date)` (line 108) exists; the
index is what makes an `INSERT` with a duplicate `(Cd, Date)` raise
`IntegrityError`. -/

/-- A row of the `Assets` table (declared, never populated). -/
structure AssetRow where
  cd : String
  name : String
  gicsSectorId : Int
deriving DecidableEq, Repr

/-- A row of the `GicsSectors` table (declared, never populated). -/
structure GicsSectorRow where
  id : Int
  name : String
deriving DecidableEq, Repr

/-- The database file contents. -/
structure DB (α : Type) where
  timeSeries : List (PriceRecord α)
  assets : List AssetRow
  gicsSectors : List GicsSectorRow
  uniqueIdx : Bool
deriving DecidableEq, Repr

/-- `IOError` raised by `create_db` on an existing path
(`database.py` lines 100-101); the spec's ExistsError. -/
inductive DbError
  | ioError
deriving DecidableEq, Repr

/-- `sqlite3.IntegrityError` raised by an `INSERT` that violates the
unique index. -/
inductive IntegrityError
  | uniqueViolation
deriving DecidableEq, Repr

/-- `create_db` (`database.py` lines 97-111): raise `IOError` if the path
exists, otherwise create the three empty tables and the unique index and
commit. -/
def create_db (store : Option (DB α)) : Except DbError (DB α) :=
  match store with
  | some _ => .error .ioError
  | none => .ok ⟨[], [], [], true⟩

/-- Two rows collide on the unique index exactly when they agree on
`(Cd, Date)`, i.e. on `(symbol, date)`. -/
def sameKey (p q : PriceRecord α) : Prop :=
  p.symbol = q.symbol ∧ p.date = q.date

instance (p q : PriceRecord α) : Decidable (sameKey p q) :=
  inferInstanceAs (Decidable (_ ∧ _))

/-- The table already holds a row with `r`'s `(symbol, date)` key. -/
def hasKey (db : DB α) (r : PriceRecord α) : Prop :=
  ∃ q ∈ db.timeSeries, sameKey q r

instance (db : DB α) (r : PriceRecord α) : Decidable (hasKey db r) :=
  inferInstanceAs (Decidable (∃ q ∈ db.timeSeries, sameKey q r))

/-- One execution of the `INSERT INTO TimeSeries ...` statement
(`database.py` line 128): with the unique index present, a duplicate
`(Cd, Date)` raises `IntegrityError`; otherwise the row is appended. -/
def insertRow (db : DB α) (r : PriceRecord α) : Except IntegrityError (DB α) :=
  if db.uniqueIdx = true ∧ hasKey db r then .error .uniqueViolation
  else .ok ⟨db.timeSeries ++ [r], db.assets, db.gicsSectors, db.uniqueIdx⟩

/-- Result of `cursor.executemany` plus the connection's change counter. -/
structure ExecResult (α : Type) where
  db : DB α
  changed : Nat
  err : Option IntegrityError
deriving DecidableEq, Repr

/-- The sqlite3 driver semantics of `c.executemany(sql, data.tolist())`
(`database.py` line 130): the `INSERT` is executed once per row, in
order, inside the connection's open transaction; at the first row that
raises `IntegrityError` the loop stops and the exception propagates,
leaving the earlier rows of the batch in the transaction.  `changed` is
the number of rows inserted, which is what `conn.total_changes` reports
for a connection opened by this call. -/
def executemany : DB α → List (PriceRecord α) → ExecResult α
  | db, [] => ⟨db, 0, none⟩
  | db, r :: rs =>
    match insertRow db r with
    | .error e => ⟨db, 0, some e⟩
    | .ok db2 =>
      let res := executemany db2 rs
      ⟨res.db, res.changed + 1, res.err⟩

/-- The existence check in `save_to_db` (`database.py` lines 118-119):
`create_db` is invoked only when the path does not exist. -/
def ensure_db (store : Option (DB α)) : Except DbError (DB α) :=
  match store with
  | none => create_db (none : Option (DB α))
  | some db => .ok db

/-- `save_to_db` (`database.py` lines 114-138): ensure the schema exists,
run the batched `INSERT` inside `try: ... except sqlite3.IntegrityError:
pass`, commit, and return `conn.total_changes` — the rows changed on this
(freshly opened) connection. -/
def save_to_db (data : List (PriceRecord α)) (store : Option (DB α)) :
    Except DbError (Nat × DB α) :=
  match ensure_db store with
  | .error e => .error e
  | .ok db =>
    let res := executemany db data
    .ok (res.changed, res.db)

/-- A sequence of `save_to_db` calls against the same path, each seeing
the state the previous call committed.  `save_to_db` never returns an
error (see `save_to_db_never_exists_error`), so the error arm is inert;
it is kept only to make the function total. -/
def runSaves : List (List (PriceRecord α)) → Option (DB α) → Option (DB α)
  | [], store => store
  | batch :: rest, store =>
    match save_to_db batch store with
    | .ok (_, db) => runSaves rest (some db)
    | .error _ => store

/-- The TimeSeries uniqueness invariant: no two rows share `(symbol, date)`. -/
def nodupKeys (db : DB α) : Prop :=
  db.timeSeries.Pairwise fun p q => ¬ sameKey p q

/-- Store states the program can actually reach: an absent file, or a
database that was built by `create_db` and hence carries the unique
index. -/
def storeWF : Option (DB α) → Prop
  | none => True
  | some db => db.uniqueIdx = true

/-! ## `populate_db`, symbol-file branch (`database.py` lines 155-169)

For each CSV line the first field is sanitized by the loop

    for itm in badchars:
        symb = symb.replace(itm, "-")
        symbolset.add(symb.strip())

Note that the `add` is inside the `for itm` loop, so one intermediate
(partially replaced) value is added to the set per bad character. -/

/-- The characters replaced by `-` (`database.py` line 160). -/
def badchars : List Char := ['/', ':', '^', '%', '\\']

/-- The inner loop above: the successive values `symbolset.add` receives
while the loop runs over `bs` starting from `symb`. -/
def addLoop : List Char → List Char → List (List Char)
  | [], _ => []
  | b :: bs, symb =>
    let symb2 := replaceChar b symb
    pyStripList symb2 :: addLoop bs symb2

/-- All values placed into `symbolset` for one first-column field `symb`
of the symbol file. -/
def symbolsAdded (symb : String) : List String :=
  (addLoop badchars symb.toList).map String.mk

/-! ## Concrete data used by the witnesses -/

/-- A sample parsed record. -/
def recA : PriceRecord Nat := ⟨"AAA", "2020-01-02", 1, 2, 3, 4, 5, 6⟩

/-- Same `(symbol, date)` key as `recA`, different price fields. -/
def recA2 : PriceRecord Nat := ⟨"AAA", "2020-01-02", 9, 8, 7, 6, 5, 4⟩

/-- A record with a different key. -/
def recC : PriceRecord Nat := ⟨"AAA", "2020-01-03", 1, 2, 3, 4, 5, 6⟩

/-- A freshly created store. -/
def dbEmpty : DB Nat := ⟨[], [], [], true⟩

/-- The store after saving `recA` into a fresh database. -/
def dbA : DB Nat := ⟨[recA], [], [], true⟩

/-- A small raw response: header, one well-formed data line, one short line. -/
def wLines : List String :=
  ["Date,Open,High,Low,Close,Volume,Adj Close",
   "2020-01-02,1,2,3,4,5,6",
   "short,line"]

/-- A concrete `float` parser accepting every field (prices as `Nat 0`). -/
def pyfloatW : String → Option Nat := fun _ => some 0

/-- A concrete `'M8[D]'` parser accepting every date string unchanged. -/
def npdateW : String → Option String := fun s => some s

/-- A concrete `float` parser accepting only the literal `"1"`. -/
def pyfloatC : String → Option Nat := fun s => if s = "1" then some 1 else none

/-- A concrete `'M8[D]'` parser accepting only the literal `"2020-01-02"`. -/
def npdateC : String → Option String :=
  fun s => if s = "2020-01-02" then some s else none

/-! ## Helper lemmas about the store -/

theorem insertRow_ok {α : Type} {db db2 : DB α} {r : PriceRecord α}
    (h : insertRow db r = .ok db2) :
    db2 = ⟨db.timeSeries ++ [r], db.assets, db.gicsSectors, db.uniqueIdx⟩ ∧
    ¬ (db.uniqueIdx = true ∧ hasKey db r) := by
  unfold insertRow at h
  by_cases hc : db.uniqueIdx = true ∧ hasKey db r
  · rw [if_pos hc] at h; exact absurd h (by simp)
  · rw [if_neg hc] at h
    exact ⟨(Except.ok.inj h).symm, hc⟩

theorem insertRow_err {α : Type} {db : DB α} {r : PriceRecord α} {e : IntegrityError}
    (h : insertRow db r = .error e) :
    db.uniqueIdx = true ∧ hasKey db r := by
  unfold insertRow at h
  by_cases hc : db.uniqueIdx = true ∧ hasKey db r
  · exact hc
  · rw [if_neg hc] at h; exact absurd h (by simp)

theorem executemany_shape {α : Type} (db : DB α) (data : List (PriceRecord α)) :
    ∃ ins : List (PriceRecord α),
      (executemany db data).db = ⟨db.timeSeries ++ ins, db.assets, db.gicsSectors, db.uniqueIdx⟩ ∧
      ins.length = (executemany db data).changed := by
  induction data generalizing db with
  | nil => exact ⟨[], by simp [executemany], by simp [executemany]⟩
  | cons r rs ih =>
    cases hins : insertRow db r with
    | error e => exact ⟨[], by simp [executemany, hins], by simp [executemany, hins]⟩
    | ok db2 =>
      obtain ⟨hdb2, -⟩ := insertRow_ok hins
      subst hdb2
      obtain ⟨ins, hsh, hlen⟩ := ih ⟨db.timeSeries ++ [r], db.assets, db.gicsSectors, db.uniqueIdx⟩
      refine ⟨r :: ins, ?_, ?_⟩
      · simp only [executemany, hins]
        rw [hsh]
        simp [List.append_assoc]
      · simp [executemany, hins, ← hlen]

theorem executemany_uniqueIdx {α : Type} (db : DB α) (data : List (PriceRecord α)) :
    (executemany db data).db.uniqueIdx = db.uniqueIdx := by
  obtain ⟨ins, hsh, -⟩ := executemany_shape db data
  rw [hsh]

theorem executemany_mem {α : Type} (db : DB α) (data : List (PriceRecord α))
    {q : PriceRecord α} (hq : q ∈ db.timeSeries) :
    q ∈ (executemany db data).db.timeSeries := by
  obtain ⟨ins, hsh, -⟩ := executemany_shape db data
  rw [hsh]
  exact List.mem_append_left ins hq

theorem executemany_length {α : Type} (db : DB α) (data : List (PriceRecord α)) :
    (executemany db data).db.timeSeries.length =
      db.timeSeries.length + (executemany db data).changed := by
  obtain ⟨ins, hsh, hlen⟩ := executemany_shape db data
  rw [hsh, ← hlen]
  simp

theorem executemany_head_key {α : Type} (db : DB α) (r : PriceRecord α)
    (rs : List (PriceRecord α)) :
    ∃ q ∈ (executemany db (r :: rs)).db.timeSeries, sameKey q r := by
  cases hins : insertRow db r with
  | error e =>
    obtain ⟨-, q, hq, hk⟩ := insertRow_err hins
    refine ⟨q, ?_, hk⟩
    simpa [executemany, hins] using hq
  | ok db2 =>
    obtain ⟨hdb2, -⟩ := insertRow_ok hins
    have hr : r ∈ db2.timeSeries := by rw [hdb2]; simp
    refine ⟨r, ?_, ⟨rfl, rfl⟩⟩
    simpa [executemany, hins] using executemany_mem db2 rs hr

theorem executemany_blocked {α : Type} (db : DB α) (r : PriceRecord α)
    (rs : List (PriceRecord α)) (hidx : db.uniqueIdx = true) (hk : hasKey db r) :
    executemany db (r :: rs) = ⟨db, 0, some .uniqueViolation⟩ := by
  have hins : insertRow db r = .error .uniqueViolation := by
    unfold insertRow; rw [if_pos ⟨hidx, hk⟩]
  simp [executemany, hins]

theorem executemany_nodup {α : Type} (db : DB α) (data : List (PriceRecord α))
    (hidx : db.uniqueIdx = true) (hnd : nodupKeys db) :
    nodupKeys (executemany db data).db := by
  induction data generalizing db with
  | nil => simpa [executemany]
  | cons r rs ih =>
    cases hins : insertRow db r with
    | error e => simpa [executemany, hins]
    | ok db2 =>
      obtain ⟨hdb2, hnk⟩ := insertRow_ok hins
      have hfresh : ∀ q ∈ db.timeSeries, ¬ sameKey q r := by
        intro q hq hk
        exact hnk ⟨hidx, q, hq, hk⟩
      have hnd2 : nodupKeys db2 := by
        rw [hdb2]
        unfold nodupKeys
        simp only [List.pairwise_append, List.pairwise_cons]
        refine ⟨hnd, by simp, ?_⟩
        intro q hq p hp
        have : p = r := by simpa using hp
        subst this
        exact hfresh q hq
      have hidx2 : db2.uniqueIdx = true := by rw [hdb2]; exact hidx
      simpa [executemany, hins] using ih db2 hidx2 hnd2

theorem pairwise_key_unique {α : Type} {l : List (PriceRecord α)}
    (h : l.Pairwise fun p q => ¬ sameKey p q)
    {p q : PriceRecord α} (hp : p ∈ l) (hq : q ∈ l) (hk : sameKey p q) : p = q := by
  by_contra hne
  have hsymm : Symmetric fun p q : PriceRecord α => ¬ sameKey p q := by
    intro a b hab hk'
    exact hab ⟨hk'.1.symm, hk'.2.symm⟩
  exact h.forall hsymm hp hq hne hk

theorem save_to_db_some {α : Type} (data : List (PriceRecord α)) (db : DB α) :
    save_to_db data (some db) =
      .ok ((executemany db data).changed, (executemany db data).db) := rfl

theorem save_to_db_none {α : Type} (data : List (PriceRecord α)) :
    save_to_db data (none : Option (DB α)) =
      .ok ((executemany (⟨[], [], [], true⟩ : DB α) data).changed,
           (executemany (⟨[], [], [], true⟩ : DB α) data).db) := rfl

theorem executemany_append {α : Type} (db : DB α) (pre rest : List (PriceRecord α))
    (db1 : DB α) (n : Nat) (h : executemany db pre = ⟨db1, n, none⟩) :
    executemany db (pre ++ rest) =
      ⟨(executemany db1 rest).db, n + (executemany db1 rest).changed,
       (executemany db1 rest).err⟩ := by
  induction pre generalizing db n with
  | nil =>
    simp only [executemany, ExecResult.mk.injEq] at h
    obtain ⟨h1, h2, -⟩ := h
    subst h1
    subst h2
    simp
  | cons r pre' ih =>
    cases hins : insertRow db r with
    | error e => simp [executemany, hins] at h
    | ok db2 =>
      simp only [executemany, hins] at h
      cases hres : executemany db2 pre' with
      | mk dbm cm em =>
        rw [hres] at h
        simp only [ExecResult.mk.injEq] at h
        obtain ⟨hdb, hn, hem⟩ := h
        subst hdb
        subst hem
        have hih := ih db2 cm hres
        simp only [List.cons_append, executemany, hins, List.append_eq, hih,
          ExecResult.mk.injEq]
        refine ⟨trivial, by omega, trivial⟩

theorem executemany_clean {α : Type} (db : DB α) (pre : List (PriceRecord α))
    (db1 : DB α) (n : Nat) (h : executemany db pre = ⟨db1, n, none⟩) :
    db1.timeSeries = db.timeSeries ++ pre ∧ n = pre.length := by
  induction pre generalizing db n with
  | nil =>
    simp only [executemany, ExecResult.mk.injEq] at h
    obtain ⟨h1, h2, -⟩ := h
    subst h1
    subst h2
    simp
  | cons r pre' ih =>
    cases hins : insertRow db r with
    | error e => simp [executemany, hins] at h
    | ok db2 =>
      obtain ⟨hdb2, -⟩ := insertRow_ok hins
      simp only [executemany, hins] at h
      cases hres : executemany db2 pre' with
      | mk dbm cm em =>
        rw [hres] at h
        simp only [ExecResult.mk.injEq] at h
        obtain ⟨hdb, hn, hem⟩ := h
        subst hdb
        subst hem
        obtain ⟨hts, hlen⟩ := ih db2 cm hres
        constructor
        · rw [hts, hdb2]
          simp [List.append_assoc]
        · simp [← hn, hlen]

/-! ## Helper lemmas about the parser -/

theorem classifyLine_skip_iff {α : Type} (pyfloat : String → Option α)
    (symbol line : String) :
    classifyLine pyfloat symbol line = LineResult.skip ↔ (lineItems line).length ≠ 7 := by
  unfold classifyLine
  generalize lineItems line = items
  match items with
  | [] => simp
  | [a] => simp
  | [a, b] => simp
  | [a, b, c] => simp
  | [a, b, c, d] => simp
  | [a, b, c, d, e] => simp
  | [a, b, c, d, e, f] => simp
  | [dt, s1, s2, s3, s4, s5, s6] =>
    cases hp : parse6 pyfloat s1 s2 s3 s4 s5 s6 with
    | none => simp [hp]
    | some v =>
      obtain ⟨a, b, c, d, e, f⟩ := v
      simp [hp]
  | dt :: s1 :: s2 :: s3 :: s4 :: s5 :: s6 :: s7 :: rest =>
    simp only [List.length_cons]
    constructor
    · intro _
      omega
    · intro _
      trivial

theorem parseDataLines_eq_filterMap {α : Type} (pyfloat : String → Option α)
    (symbol : String) (ls : List String)
    (H : ∀ line ∈ ls, classifyLine pyfloat symbol line ≠ LineResult.bad) :
    parseDataLines pyfloat symbol ls =
      .ok (ls.filterMap (tryRecordOfLine pyfloat symbol)) := by
  induction ls with
  | nil => rfl
  | cons line rest ih =>
    have hline := H line (by simp)
    have hrest : ∀ l ∈ rest, classifyLine pyfloat symbol l ≠ LineResult.bad :=
      fun l hl => H l (by simp [hl])
    cases hc : classifyLine pyfloat symbol line with
    | skip => simp [parseDataLines, tryRecordOfLine, hc, ih hrest]
    | bad => exact absurd hc hline
    | record r => simp [parseDataLines, tryRecordOfLine, hc, ih hrest]

theorem npArray_eq {α : Type} (npdate : String → Option String)
    (l : List (PriceRecord α)) (H : ∀ r ∈ l, (npCoerce npdate r).isSome) :
    npArray npdate l = .ok (l.filterMap (npCoerce npdate)) := by
  induction l with
  | nil => rfl
  | cons r rs ih =>
    have hr := H r (by simp)
    cases hc : npCoerce npdate r with
    | none => rw [hc] at hr; simp at hr
    | some r2 =>
      have hrs : ∀ q ∈ rs, (npCoerce npdate q).isSome := fun q hq => H q (by simp [hq])
      simp [npArray, hc, ih hrs]

/-! ## Helper lemmas about sequences of saves -/

theorem save_wf {α : Type} (batch : List (PriceRecord α)) (db0 : DB α)
    (hidx : db0.uniqueIdx = true) (hnd : nodupKeys db0) {n : Nat} {db' : DB α}
    (h : save_to_db batch (some db0) = .ok (n, db')) :
    db'.uniqueIdx = true ∧ nodupKeys db' := by
  rw [save_to_db_some] at h
  obtain ⟨-, hdb⟩ := Prod.mk.inj (Except.ok.inj h)
  subst hdb
  exact ⟨by rw [executemany_uniqueIdx]; exact hidx, executemany_nodup db0 batch hidx hnd⟩

theorem runSaves_inv {α : Type} (batches : List (List (PriceRecord α)))
    (store : Option (DB α))
    (hst : ∀ db0, store = some db0 → db0.uniqueIdx = true ∧ nodupKeys db0) :
    ∀ db, runSaves batches store = some db → db.uniqueIdx = true ∧ nodupKeys db := by
  induction batches generalizing store with
  | nil =>
    intro db h
    exact hst db h
  | cons batch rest ih =>
    intro db h
    cases store with
    | none =>
      rw [runSaves, save_to_db_none] at h
      refine ih (some _) ?_ db h
      intro db0 hdb0
      obtain rfl := Option.some.inj hdb0
      have hnd0 : nodupKeys (⟨[], [], [], true⟩ : DB α) := by
        unfold nodupKeys; simp
      exact ⟨by rw [executemany_uniqueIdx], executemany_nodup _ batch rfl hnd0⟩
    | some db0 =>
      obtain ⟨hidx0, hnd0⟩ := hst db0 rfl
      rw [runSaves, save_to_db_some] at h
      refine ih (some _) ?_ db h
      intro db1 hdb1
      obtain rfl := Option.some.inj hdb1
      exact ⟨by rw [executemany_uniqueIdx]; exact hidx0,
             executemany_nodup db0 batch hidx0 hnd0⟩

/-! ## Claim theorems -/

/-- C1: Save is idempotent.  For every record set and store state (an
absent file, or any database carrying the unique index, i.e. any state
`create_db` can have produced), if a `save_to_db` run returns `(n1, db1)`,
then running `save_to_db` again with the same record set on the resulting
store returns `0` new rows saved and leaves the database — in particular
the TimeSeries row count — unchanged. -/
theorem save_idempotent {α : Type} (data : List (PriceRecord α)) (store : Option (DB α))
    (hwf : storeWF store) (n1 : Nat) (db1 : DB α)
    (h1 : save_to_db data store = .ok (n1, db1)) :
    save_to_db data (some db1) = .ok (0, db1) := by
  obtain ⟨db0, hidx0, hdb1⟩ :
      ∃ db0 : DB α, db0.uniqueIdx = true ∧ db1 = (executemany db0 data).db := by
    cases store with
    | none =>
      rw [save_to_db_none] at h1
      obtain ⟨-, hdb⟩ := Prod.mk.inj (Except.ok.inj h1)
      exact ⟨⟨[], [], [], true⟩, rfl, hdb.symm⟩
    | some db0 =>
      rw [save_to_db_some] at h1
      obtain ⟨-, hdb⟩ := Prod.mk.inj (Except.ok.inj h1)
      exact ⟨db0, hwf, hdb.symm⟩
  have hidx1 : db1.uniqueIdx = true := by
    rw [hdb1, executemany_uniqueIdx]
    exact hidx0
  cases data with
  | nil => rfl
  | cons r rs =>
    obtain ⟨q, hq, hk⟩ := executemany_head_key db0 r rs
    rw [← hdb1] at hq
    have hblocked := executemany_blocked db1 r rs hidx1 ⟨q, hq, hk⟩
    rw [save_to_db_some, hblocked]

/-- C1 witness: on a fresh (absent) store, saving `[recA]` persists one
row; saving the same record set again saves 0 rows and leaves the store
unchanged. -/
theorem save_idempotent_witness :
    save_to_db [recA] (some dbA) = .ok (0, dbA) :=
  save_idempotent [recA] (none : Option (DB Nat)) trivial 1 dbA rfl

/-- C2: Uniqueness invariant with first-writer-wins.  (1) After any
sequence of `save_to_db` calls against an initially absent store, no two
TimeSeries rows share a `(symbol, date)` key (and the unique index is in
place).  (2) Saving any batch over a well-formed store never modifies or
removes an existing row `q`: `q` survives, and every row carrying `q`'s
key is `q` itself — the first accepted record's values survive.
(3) Re-saving a record whose key is already present (a conflicting
variant) reports 0 rows saved and leaves the table unchanged. -/
theorem save_unique_first_writer_wins (α : Type) :
    (∀ (batches : List (List (PriceRecord α))) (db : DB α),
        runSaves batches (none : Option (DB α)) = some db →
        db.uniqueIdx = true ∧ nodupKeys db) ∧
    (∀ (db : DB α) (batch : List (PriceRecord α)) (n : Nat) (db' : DB α)
        (q : PriceRecord α),
        db.uniqueIdx = true → nodupKeys db →
        save_to_db batch (some db) = .ok (n, db') → q ∈ db.timeSeries →
        q ∈ db'.timeSeries ∧ ∀ p ∈ db'.timeSeries, sameKey p q → p = q) ∧
    (∀ (db : DB α) (r q : PriceRecord α),
        db.uniqueIdx = true → q ∈ db.timeSeries → sameKey q r →
        save_to_db [r] (some db) = .ok (0, db)) := by
  refine ⟨?_, ?_, ?_⟩
  · intro batches db h
    exact runSaves_inv batches (none : Option (DB α)) (fun db0 h0 => by cases h0) db h
  · intro db batch n db' q hidx hnd h hq
    rw [save_to_db_some] at h
    obtain ⟨-, hdb⟩ := Prod.mk.inj (Except.ok.inj h)
    subst hdb
    have hnd' : nodupKeys (executemany db batch).db := executemany_nodup db batch hidx hnd
    have hq' : q ∈ (executemany db batch).db.timeSeries := executemany_mem db batch hq
    exact ⟨hq', fun p hp hk => pairwise_key_unique hnd' hp hq' hk⟩
  · intro db r q hidx hq hk
    have hblocked := executemany_blocked db r [] hidx ⟨q, hq, hk⟩
    rw [save_to_db_some, hblocked]

/-- C2 witness: a one-batch history from an absent store yields a table
with the invariant, and re-saving a conflicting variant (`recA2` has
`recA`'s key but different prices) is a no-op reporting 0 rows. -/
theorem save_unique_first_writer_wins_witness :
    (dbA.uniqueIdx = true ∧ nodupKeys dbA) ∧
    save_to_db [recA2] (some dbA) = .ok (0, dbA) :=
  ⟨(save_unique_first_writer_wins Nat).1 [[recA]] dbA rfl,
   (save_unique_first_writer_wins Nat).2.2 dbA recA2 recA rfl (by simp [dbA]) ⟨rfl, rfl⟩⟩

/-- C3: a uniqueness violation inside `save_to_db` is caught and
suppressed.  If the batched insert raises `IntegrityError` (third
component `some e`), `save_to_db` still returns normally — no error
surfaces — with the state the insert loop reached at the violation
committed, and it reports exactly the number of rows actually persisted
(the connection's total change count, which equals the growth of the
TimeSeries table). -/
theorem save_suppresses_uniqueness_violation {α : Type} (db : DB α)
    (data : List (PriceRecord α)) (db' : DB α) (n : Nat) (e : IntegrityError)
    (h : executemany db data = ⟨db', n, some e⟩) :
    save_to_db data (some db) = .ok (n, db') ∧
    db'.timeSeries.length = db.timeSeries.length + n := by
  constructor
  · rw [save_to_db_some, h]
  · have hlen := executemany_length db data
    rw [h] at hlen
    exact hlen

/-- C3 witness: saving `[recA2, recC]` over a store already holding
`recA` (whose key `recA2` duplicates) raises a violation at the first
row, which Save suppresses: it returns `0` rows saved, no error. -/
theorem save_suppresses_uniqueness_violation_witness :
    save_to_db [recA2, recC] (some dbA) = .ok (0, dbA) ∧
    dbA.timeSeries.length = dbA.timeSeries.length + 0 :=
  save_suppresses_uniqueness_violation dbA [recA2, recC] dbA 0
    IntegrityError.uniqueViolation rfl

/-- C4 counterexample: a 7-field line does not always produce a record.
With the parsers `pyfloatC` / `npdateC`, the 7-field line
`"2020-01-02,1,1,1,1,1,bad"` (float parse failure at the last field)
and the 7-field line `"garbage,1,1,1,1,1,1"` (date rejected by the
`'M8[D]'` coercion of `np.array` at `database.py` line 93) each abort
the whole call with FormatError, yielding no output record sequence at
all — instead of contributing one record as the claim states. -/
theorem parser_seven_field_counterexample :
    (lineItems "2020-01-02,1,1,1,1,1,bad").length = 7 ∧
    parseResponse pyfloatC npdateC "AAA"
      ["Date,Open,High,Low,Close,Volume,Adj Close",
       "2020-01-02,1,1,1,1,1,bad"] = .error .formatError ∧
    (lineItems "garbage,1,1,1,1,1,1").length = 7 ∧
    parseResponse pyfloatC npdateC "AAA"
      ["Date,Open,High,Low,Close,Volume,Adj Close",
       "garbage,1,1,1,1,1,1"] = .error .formatError :=
  ⟨by decide, rfl, by decide, rfl⟩

/-- C4 (amended): the parser discards the header line (`lines.tail`);
a line whose comma-split field count is not 7 contributes nothing (the
skip outcome holds exactly for those lines) and does not affect how any
other line is parsed; and — provided every remaining 7-field line's six
numeric fields parse as floats and the record it yields survives the
`'M8[D]'` date coercion of `np.array` — each 7-field line produces
exactly one record (its symbol truncated to 8 bytes), in input order:
the output is precisely the per-line `filterMap`.  Without that proviso
the whole call aborts with FormatError and yields no record sequence
(see the counterexample). -/
theorem parser_header_and_field_count {α : Type} (pyfloat : String → Option α)
    (npdate : String → Option String) (symbol : String) (lines : List String)
    (H : ∀ line ∈ lines.tail, classifyLine pyfloat symbol line ≠ LineResult.bad)
    (H2 : ∀ line ∈ lines.tail, ∀ r : PriceRecord α,
        tryRecordOfLine pyfloat symbol line = some r → (npCoerce npdate r).isSome) :
    (∀ line : String,
        classifyLine pyfloat symbol line = LineResult.skip ↔ (lineItems line).length ≠ 7) ∧
    parseResponse pyfloat npdate symbol lines =
      .ok (lines.tail.filterMap (tryCoercedRecordOfLine pyfloat npdate symbol)) := by
  refine ⟨fun line => classifyLine_skip_iff pyfloat symbol line, ?_⟩
  have h2 : ∀ r ∈ lines.tail.filterMap (tryRecordOfLine pyfloat symbol),
      (npCoerce npdate r).isSome := by
    intro r hr
    rw [List.mem_filterMap] at hr
    obtain ⟨line, hline, htr⟩ := hr
    exact H2 line hline r htr
  unfold parseResponse
  rw [parseDataLines_eq_filterMap pyfloat symbol lines.tail H]
  show npArray npdate _ = _
  rw [npArray_eq npdate _ h2, List.filterMap_filterMap]
  rfl

/-- C4 witness: a concrete response with a header, one well-formed line
and one 2-field line parses to the per-line `filterMap` (one record),
under parsers that accept every float field and every date. -/
theorem parser_header_and_field_count_witness :
    parseResponse pyfloatW npdateW "AAA" wLines =
      .ok (wLines.tail.filterMap (tryCoercedRecordOfLine pyfloatW npdateW "AAA")) :=
  (parser_header_and_field_count pyfloatW npdateW "AAA" wLines (by decide)
    (fun _ _ _ _ => rfl)).2

/-- C5 (code bug): the sanitization loop of `populate_db` places
intermediate, only partially sanitized values into the symbol set,
because `symbolset.add` is indented inside the `for itm in badchars`
loop.  For the input symbol `"A:B"` the very first iteration (replacing
`"/"`) adds `"A:B"` itself, which still contains the disallowed
character `':'` — contradicting the claim that every value placed into
the set contains none of the disallowed characters. -/
theorem populate_sanitize_bug :
    symbolsAdded "A:B" = ["A:B", "A-B", "A-B", "A-B", "A-B"] ∧
    "A:B" ∈ symbolsAdded "A:B" ∧ ':' ∈ "A:B".toList ∧ ':' ∈ badchars := by
  decide

/-- C6 counterexample: the claim says all six date parameters are sent
zero-indexed (calendar value minus one), but the day parameter `b` for
start date 2020-05-15 is sent as 15, not 14. -/
theorem urlParams_counterexample :
    (urlParams "ABC" ⟨2020, 5, 15⟩ ⟨2020, 6, 20⟩ "d").b = 15 ∧
    ¬ ((15 : Int) = 15 - 1) := by
  decide

/-- C6 (amended): in the outbound request URL only the two month
parameters (`a` for the start date, `d` for the end date) are
zero-indexed; the day and year parameters are sent as the calendar
values unchanged. -/
theorem urlParams_months_zero_indexed (symbol : String) (sd ed : PyDate)
    (period : String) :
    (urlParams symbol sd ed period).a = sd.month - 1 ∧
    (urlParams symbol sd ed period).b = sd.day ∧
    (urlParams symbol sd ed period).c = sd.year ∧
    (urlParams symbol sd ed period).d = ed.month - 1 ∧
    (urlParams symbol sd ed period).e = ed.day ∧
    (urlParams symbol sd ed period).f = ed.year :=
  ⟨rfl, rfl, rfl, rfl, rfl, rfl⟩

/-- C7: `create_db` on an existing store always fails with the
`IOError` (the spec's ExistsError) — returning the error, it leaves the
target untouched — and on an absent store it always succeeds, producing
exactly the three empty tables (TimeSeries, Assets, GicsSectors) with
the unique index on `(symbol, date)` in place. -/
theorem create_db_spec (α : Type) :
    (∀ db : DB α, create_db (some db) = .error .ioError) ∧
    create_db (none : Option (DB α)) = .ok ⟨[], [], [], true⟩ :=
  ⟨fun _ => rfl, rfl⟩

/-- C8: `save_to_db` invokes `create_db` only after checking that the
store does not exist, so the `IOError`/ExistsError branch of `create_db`
is unreachable from Save: for every record set and every store state,
`save_to_db` returns normally. -/
theorem save_to_db_never_exists_error (α : Type) (data : List (PriceRecord α))
    (store : Option (DB α)) :
    ∃ n : Nat, ∃ db' : DB α, save_to_db data store = .ok (n, db') := by
  cases store with
  | none => exact ⟨_, _, rfl⟩
  | some db => exact ⟨_, _, rfl⟩

/-- C9 counterexample: invoked on local calendar day 2024-03-01 with no
dates supplied, `get_yahoo_prices` uses start date 2023-03-02 — i.e.
`today - timedelta(365)` — which is not one year before the invocation
day (2023-03-01), because the 365-day window spans 2024-02-29.  (The end
date 2024-02-29 is the day before, as claimed.) -/
theorem get_yahoo_dates_counterexample :
    get_yahoo_dates ⟨2024, 3, 1⟩ (fun _ _ => none) none none "%Y-%m-%d" =
      .ok (⟨2023, 3, 2⟩, ⟨2024, 2, 29⟩) ∧
    (⟨2023, 3, 2⟩ : PyDate) ≠ oneYearBefore ⟨2024, 3, 1⟩ :=
  ⟨rfl, by decide⟩

/-- C9 (amended): with no dates supplied, the start date defaults to 365
days before the local calendar day at invocation time (`today -
timedelta(365)`, which coincides with "one year before" only when no
Feb 29 lies in the window) and the end date to the day before
(`today - timedelta(1)`); and whenever a supplied date string does not
match the configured format (`strptime` fails), the call fails with
FormatError. -/
theorem get_yahoo_dates_defaults (today : PyDate)
    (strptime : String → String → Option PyDate) (datefmt : String) :
    get_yahoo_dates today strptime none none datefmt =
      .ok (dateSubDays today 365, dateSubDays today 1) ∧
    (∀ s, strptime s datefmt = none → ∀ ed,
        get_yahoo_dates today strptime (some s) ed datefmt = .error .formatError) ∧
    (∀ s2, strptime s2 datefmt = none →
        get_yahoo_dates today strptime none (some s2) datefmt = .error .formatError) ∧
    (∀ s s2 sd, strptime s datefmt = some sd → strptime s2 datefmt = none →
        get_yahoo_dates today strptime (some s) (some s2) datefmt =
          .error .formatError) := by
  refine ⟨rfl, ?_, ?_, ?_⟩
  · intro s hs ed
    simp [get_yahoo_dates, hs]
  · intro s2 hs2
    simp [get_yahoo_dates, hs2]
  · intro s s2 sd hs hs2
    simp [get_yahoo_dates, hs, hs2]

/-- C9 witness: a start date string the (here: all-rejecting) `strptime`
does not accept makes the call fail with FormatError. -/
theorem get_yahoo_dates_defaults_witness :
    get_yahoo_dates ⟨2024, 3, 1⟩ (fun _ _ => none) (some "2024-13-99") none
      "%Y-%m-%d" = .error .formatError :=
  (get_yahoo_dates_defaults ⟨2024, 3, 1⟩ (fun _ _ => none) "%Y-%m-%d").2.1
    "2024-13-99" rfl none

/-- C10: within one Save batch containing a uniqueness violation, the
rows inserted before the first violating row are retained and committed,
while the violating row and every row after it are not persisted: if the
prefix `pre` inserts cleanly and `v` violates, the whole call commits
exactly `db.timeSeries ++ pre`, reports `n = pre.length` rows, and
nothing of `v :: post` is saved. -/
theorem save_partial_batch {α : Type} (db db1 : DB α) (pre : List (PriceRecord α))
    (v : PriceRecord α) (post : List (PriceRecord α)) (n : Nat) (e : IntegrityError)
    (hpre : executemany db pre = ⟨db1, n, none⟩)
    (hv : insertRow db1 v = .error e) :
    save_to_db (pre ++ v :: post) (some db) = .ok (n, db1) ∧
    db1.timeSeries = db.timeSeries ++ pre ∧ n = pre.length := by
  have hrest : executemany db1 (v :: post) = ⟨db1, 0, some e⟩ := by
    simp [executemany, hv]
  have happ := executemany_append db pre (v :: post) db1 n hpre
  rw [hrest] at happ
  refine ⟨?_, executemany_clean db pre db1 n hpre⟩
  rw [save_to_db_some, happ]
  simp

/-- C10 witness: the batch `[recA, recA2, recC]` on a fresh store inserts
`recA`, violates at `recA2` (same key), and persists neither `recA2` nor
the later `recC`: exactly one row is committed. -/
theorem save_partial_batch_witness :
    save_to_db [recA, recA2, recC] (some dbEmpty) = .ok (1, dbA) ∧
    dbA.timeSeries = dbEmpty.timeSeries ++ [recA] ∧ 1 = [recA].length :=
  save_partial_batch dbEmpty dbA [recA] recA2 [recC] 1
    IntegrityError.uniqueViolation rfl rfl

end AssetJet
